import Mathlib

/-!
# Verification of the habitat `hab svc` configuration-resolution engine

Shallow embedding of `src/components/hab/src/cli/hab/svc.rs`: the
provenance-tagged load-specification data model, the merge/patch engine,
the config-file loader, and the bulk directory resolver
(`svc_loads_from_paths`).

The bulk resolver `svc_loads_from_paths` is embedded directly from the
Rust source.  The patch operation (`patch_for`), the TOML loader
(`configopt::from_toml_file`) and the default-config loader
(`from_default_config_files`) are generated/crate code not present in the
repository sources; those are modelled from the spec, as marked on each
definition.
-/

set_option autoImplicit false

namespace Habitat

/-- A field value as it appears in a structured (TOML-like) config
document: a string, a non-negative integer, a boolean, or a list of
strings (for `bind`). -/
inductive Val where
  | str : String → Val
  | nat : Nat → Val
  | bool : Bool → Val
  | strs : List String → Val
deriving DecidableEq, Repr

/-- Provenance tag of a resolved field: `explicitVal` when the user or a
higher-precedence source set it, `defaultedVal` when it is a fallback
(built-in constant or serde default). -/
inductive Provenance where
  | explicitVal : Val → Provenance
  | defaultedVal : Val → Provenance
deriving DecidableEq, Repr

/-- The recognized fields of a `Load` specification, from the serde-visible
fields of `Load` and the flattened `SharedLoad` in `svc.rs`
(`application` and `environment` carry `serde(skip)` and are therefore not
part of the recognized field set). -/
inductive FieldName where
  | pkg_ident
  | force
  | remote_sup
  | channel
  | bldr_url
  | group
  | topology
  | strategy
  | update_condition
  | bind
  | binding_mode
  | health_check_interval
  | shutdown_timeout
  | config_from
deriving DecidableEq, Repr

/-- A resolved (or partial) load specification: one provenance-tagged slot
per recognized field, `none` meaning the field is unset.  This is the
provenance view of the Rust `Load` struct (with `SharedLoad` flattened
in). -/
structure Load where
  pkg_ident : Option Provenance
  force : Option Provenance
  remote_sup : Option Provenance
  channel : Option Provenance
  bldr_url : Option Provenance
  group : Option Provenance
  topology : Option Provenance
  strategy : Option Provenance
  update_condition : Option Provenance
  bind : Option Provenance
  binding_mode : Option Provenance
  health_check_interval : Option Provenance
  shutdown_timeout : Option Provenance
  config_from : Option Provenance
deriving DecidableEq, Repr

/-- Field accessor for `Load`, indexed by `FieldName`. -/
def Load.get (s : Load) : FieldName → Option Provenance
  | .pkg_ident => s.pkg_ident
  | .force => s.force
  | .remote_sup => s.remote_sup
  | .channel => s.channel
  | .bldr_url => s.bldr_url
  | .group => s.group
  | .topology => s.topology
  | .strategy => s.strategy
  | .update_condition => s.update_condition
  | .bind => s.bind
  | .binding_mode => s.binding_mode
  | .health_check_interval => s.health_check_interval
  | .shutdown_timeout => s.shutdown_timeout
  | .config_from => s.config_from

/-- Build a `Load` from a per-field assignment. -/
def mkLoad (g : FieldName → Option Provenance) : Load where
  pkg_ident := g .pkg_ident
  force := g .force
  remote_sup := g .remote_sup
  channel := g .channel
  bldr_url := g .bldr_url
  group := g .group
  topology := g .topology
  strategy := g .strategy
  update_condition := g .update_condition
  bind := g .bind
  binding_mode := g .binding_mode
  health_check_interval := g .health_check_interval
  shutdown_timeout := g .shutdown_timeout
  config_from := g .config_from

/-- Modelled from the spec: the per-field patch rule of configopt's
`patch_for` (the generated `patch_for` code is not in the repository
sources).  If the base field is explicit it is kept; if the base is
defaulted or unset and the overlay is explicit, the overlay's value is
adopted (tagged explicit); if both are defaulted the base's default is
kept; an unset base takes whatever the overlay has. -/
def patchField : Option Provenance → Option Provenance → Option Provenance
  | some (.explicitVal v), _ => some (.explicitVal v)
  | some (.defaultedVal _), some (.explicitVal w) => some (.explicitVal w)
  | some (.defaultedVal v), _ => some (.defaultedVal v)
  | none, o => o

/-- Modelled from the spec: `patch(base, overlay)` applies `patchField`
on every field.  In the Rust source this is
`overlay_partial.patch_for(&mut base)` (with the partial spec from the
default config file as the overlay). -/
def patch (base overlay : Load) : Load where
  pkg_ident := patchField base.pkg_ident overlay.pkg_ident
  force := patchField base.force overlay.force
  remote_sup := patchField base.remote_sup overlay.remote_sup
  channel := patchField base.channel overlay.channel
  bldr_url := patchField base.bldr_url overlay.bldr_url
  group := patchField base.group overlay.group
  topology := patchField base.topology overlay.topology
  strategy := patchField base.strategy overlay.strategy
  update_condition := patchField base.update_condition overlay.update_condition
  bind := patchField base.bind overlay.bind
  binding_mode := patchField base.binding_mode overlay.binding_mode
  health_check_interval :=
    patchField base.health_check_interval overlay.health_check_interval
  shutdown_timeout := patchField base.shutdown_timeout overlay.shutdown_timeout
  config_from := patchField base.config_from overlay.config_from

/-- `true` iff the optional field slot holds an explicitly-set value. -/
def isExplicitOpt : Option Provenance → Bool
  | some (.explicitVal _) => true
  | _ => false

/-- `true` iff the optional field slot holds a default-derived value. -/
def isDefaultedOpt : Option Provenance → Bool
  | some (.defaultedVal _) => true
  | _ => false

theorem get_mkLoad (g : FieldName → Option Provenance) (f : FieldName) :
    (mkLoad g).get f = g f := by
  cases f <;> rfl

theorem patch_get (A B : Load) (f : FieldName) :
    (patch A B).get f = patchField (A.get f) (B.get f) := by
  cases f <;> rfl

theorem patchField_idem (a b : Option Provenance) :
    patchField a (patchField a b) = patchField a b := by
  rcases a with _ | (v | v) <;> rcases b with _ | (w | w) <;> rfl

/-! ## Config-file loader -/

/-- The errors surfaced by the resolution engine: a document that is not
parseable as the structured format, an unrecognized key, or a filesystem
(traversal/read) failure carrying the offending path. -/
inductive HabError where
  | malformedDocument
  | unknownField : String → HabError
  | fsError : String → HabError
deriving DecidableEq, Repr

/-- The contents of a file on disk, as seen by the TOML loader: either not
parseable as the structured format, or a flat key/value table. -/
inductive FileContent where
  | malformed
  | table : List (String × Val) → FileContent
deriving DecidableEq, Repr

/-- Serde key of each recognized field (the Rust field names; serde uses
field names as-is, `rename_all = "screamingsnake"` applies only to the
structopt CLI surface). -/
def fieldKey : FieldName → String
  | .pkg_ident => "pkg_ident"
  | .force => "force"
  | .remote_sup => "remote_sup"
  | .channel => "channel"
  | .bldr_url => "bldr_url"
  | .group => "group"
  | .topology => "topology"
  | .strategy => "strategy"
  | .update_condition => "update_condition"
  | .bind => "bind"
  | .binding_mode => "binding_mode"
  | .health_check_interval => "health_check_interval"
  | .shutdown_timeout => "shutdown_timeout"
  | .config_from => "config_from"

/-- The recognized key set, from the serde-visible fields of `Load` and
the flattened `SharedLoad` (`deny_unknown_fields` rejects everything
else, including the `serde(skip)` fields `application` and
`environment`). -/
def recognizedKeys : List String :=
  ["pkg_ident", "force", "remote_sup", "channel", "bldr_url", "group",
   "topology", "strategy", "update_condition", "bind", "binding_mode",
   "health_check_interval", "shutdown_timeout", "config_from"]

/-- Whether a document key belongs to the recognized field set. -/
def recognizedKey (k : String) : Bool := recognizedKeys.contains k

/-- First value bound to key `k` in a key/value table. -/
def lookupKey (kvs : List (String × Val)) (k : String) : Option Val :=
  (kvs.find? (fun kv => kv.1 == k)).map (fun kv => kv.2)

/-- Modelled from the spec: the default release channel
(`ChannelIdent::default()` lives in `habitat_core`, not in the repository
sources). -/
def CHANNEL_IDENT_DEFAULT : String := "stable"

/-- Default service group, from `GROUP_DEFAULT` in `svc.rs`. -/
def GROUP_DEFAULT : String := "default"

/-- Built-in health-check interval, from `health_check_interval_default`
in `svc.rs`. -/
def health_check_interval_default : Nat := 30

/-- The serde default applied to a field that is absent from a parsed
document, tagged `defaultedVal`; `none` for fields with no serde default
(they stay unset).  The defaults mirror the `#[serde(default ...)]`
attributes in `svc.rs`. -/
def serdeDefault : FieldName → Option Provenance
  | .channel => some (.defaultedVal (.str CHANNEL_IDENT_DEFAULT))
  | .group => some (.defaultedVal (.str GROUP_DEFAULT))
  | .strategy => some (.defaultedVal (.str "none"))
  | .update_condition => some (.defaultedVal (.str "latest"))
  | .bind => some (.defaultedVal (.strs []))
  | .binding_mode => some (.defaultedVal (.str "strict"))
  | .health_check_interval =>
      some (.defaultedVal (.nat health_check_interval_default))
  | .force => some (.defaultedVal (.bool false))
  | _ => none

/-- Modelled from the spec: `from_partial_table` builds a full `Load` from a
parsed key/value table.  A key present in the document yields an
`explicitVal` field; an absent key yields the serde default (tagged
`defaultedVal`) or stays unset. -/
def from_partial_table (kvs : List (String × Val)) : Load :=
  mkLoad fun f =>
    match lookupKey kvs (fieldKey f) with
    | some v => some (.explicitVal v)
    | none => serdeDefault f

/-- Modelled from the spec: `configopt::from_toml_file` parses a document
into a `Load`.  A malformed document fails with `malformedDocument`; a
key outside the recognized field set fails with `unknownField`
(`deny_unknown_fields`); otherwise the table becomes a `Load` via
`from_partial_table`. -/
def from_toml_file : FileContent → Except HabError Load
  | .malformed => .error .malformedDocument
  | .table kvs =>
    match kvs.find? (fun kv => !recognizedKey kv.1) with
    | some kv => .error (.unknownField kv.1)
    | none => .ok (from_partial_table kvs)

/-- A partial spec from the shared default config file: keys present in
the file become `explicitVal`, everything else stays unset (no serde
defaults fire for the partial struct). -/
def partialFromKvs (kvs : List (String × Val)) : Load :=
  mkLoad fun f =>
    match lookupKey kvs (fieldKey f) with
    | some v => some (.explicitVal v)
    | none => none

/-- Modelled from the spec:
`ConfigOptLoad::from_default_config_files()` reads the well-known default
config file (`/hab/sup/default/config/svc.toml`).  An absent file yields
the all-unset partial spec; a present file is parsed with the same strict
key checking as any other config file, its keys becoming explicit fields
of the partial spec. -/
def from_default_config_files : Option FileContent → Except HabError Load
  | none => .ok (partialFromKvs [])
  | some .malformed => .error .malformedDocument
  | some (.table kvs) =>
    match kvs.find? (fun kv => !recognizedKey kv.1) with
    | some kv => .error (.unknownField kv.1)
    | none => .ok (partialFromKvs kvs)

/-! ## Filesystem model and directory traversal -/

/-- Index of the last occurrence of a dot in a character list. -/
def lastDotIdx : List Char → Option Nat
  | [] => none
  | c :: cs =>
    match lastDotIdx cs with
    | some i => some (i + 1)
    | none => if c = '.' then some 0 else none

/-- Rust's `Path::extension` on a plain file name: the portion after the
last dot, unless the name is `".."`, has no dot, or its only leading part
before the last dot is empty (hidden files such as `".toml"`). -/
def rustExtension (fname : String) : Option String :=
  if fname = ".." then none
  else
    match lastDotIdx fname.data with
    | none => none
    | some 0 => none
    | some (i + 1) => some (String.mk (fname.data.drop (i + 2)))

/-- A node of the modelled filesystem: a regular file with contents, a
readable directory with children, or a directory whose listing fails
(permission error) when the walk reaches it. -/
inductive FsNode where
  | file : String → FileContent → FsNode
  | dir : String → List FsNode → FsNode
  | badDir : String → FsNode
deriving Repr

/-- A directory entry yielded by the walk: whether it is a regular file,
its file name, and (for files) its contents. -/
structure DirEntry where
  isFile : Bool
  fname : String
  content : FileContent
deriving DecidableEq, Repr

mutual

/-- The sequence of `walkdir` events under one node: each event is either
a directory entry or a traversal error (`entry?` in the Rust loop). -/
def walk : FsNode → List (Except HabError DirEntry)
  | .file n c => [.ok ⟨true, n, c⟩]
  | .dir n es => .ok ⟨false, n, .table []⟩ :: walkList es
  | .badDir n => [.ok ⟨false, n, .table []⟩, .error (.fsError n)]

/-- Walk events of a list of sibling nodes, in order. -/
def walkList : List FsNode → List (Except HabError DirEntry)
  | [] => []
  | e :: es => walk e ++ walkList es

end

/-- The filesystem: an association of root paths to nodes.  A path bound
here exists on disk; an unbound path does not. -/
def Fs : Type := List (String × FsNode)

/-- Look a root path up in the filesystem. -/
def rootLookup (fs : Fs) (p : String) : Option FsNode :=
  (fs.find? (fun e => e.1 == p)).map (fun e => e.2)

/-- `WalkDir::new(p)` as an event sequence: walking a nonexistent root
yields a single traversal error (which `entry?` surfaces). -/
def walkRoot (fs : Fs) (p : String) : List (Except HabError DirEntry) :=
  match rootLookup fs p with
  | none => [.error (.fsError p)]
  | some n => walk n

/-- All walk events of an input path sequence, in input order. -/
def walkAll (fs : Fs) (paths : List String) : List (Except HabError DirEntry) :=
  (paths.map (walkRoot fs)).flatten

/-! ## Bulk directory resolver (`svc_loads_from_paths`) -/

/-- `DEFAULT_SVC_CONFIG_PATH` from `svc.rs`. -/
def DEFAULT_SVC_CONFIG_PATH : String := "/hab/sup/default/config/svc"

/-- Whether a walk entry is a regular file with the `toml` extension: the
`entry.file_type().is_file()` and `extension == "toml"` tests of the Rust
loop. -/
def tomlFileEntry (e : DirEntry) : Bool :=
  e.isFile && (rustExtension e.fname == some "toml")

/-- The inner loop body of `svc_loads_from_paths` over a sequence of walk
events: a traversal error aborts; a toml file is loaded (a load error
aborts) and patched with the default partial spec; all other entries are
skipped. -/
def processEntries (defP : Load) :
    List (Except HabError DirEntry) → Except HabError (List Load)
  | [] => .ok []
  | .error e :: _ => .error e
  | .ok en :: rest =>
    if tomlFileEntry en then
      match from_toml_file en.content with
      | .error e => .error e
      | .ok s =>
        match processEntries defP rest with
        | .error e => .error e
        | .ok l => .ok (patch s defP :: l)
    else processEntries defP rest

/-- The outer loop of `svc_loads_from_paths`: walk each input path in
order and concatenate the resolved specs, aborting on the first error. -/
def processPaths (fs : Fs) (defP : Load) :
    List String → Except HabError (List Load)
  | [] => .ok []
  | p :: ps =>
    match processEntries defP (walkRoot fs p) with
    | .error e => .error e
    | .ok l =>
      match processPaths fs defP ps with
      | .error e => .error e
      | .ok l2 => .ok (l ++ l2)

/-- The body of `svc_loads_from_paths` after the tolerated-default-root
early return: load the shared default partial spec once, then traverse
all paths. -/
def bulk_load_body (fs : Fs) (defFile : Option FileContent)
    (paths : List String) : Except HabError (List Load) :=
  match from_default_config_files defFile with
  | .error e => .error e
  | .ok defP => processPaths fs defP paths

/-- `svc_loads_from_paths` from `svc.rs`: if the input is exactly the
single well-known default path and it does not exist, return the empty
result; otherwise load the shared default spec and resolve every
discovered toml file against it.  `defFile` is the contents of the
well-known default config file (`/hab/sup/default/config/svc.toml`), an
input distinct from the scanned tree. -/
def svc_loads_from_paths (fs : Fs) (defFile : Option FileContent)
    (paths : List String) : Except HabError (List Load) :=
  match paths with
  | [p] =>
    if p = DEFAULT_SVC_CONFIG_PATH ∧ (rootLookup fs p).isNone = true then
      .ok []
    else
      bulk_load_body fs defFile [p]
  | ps => bulk_load_body fs defFile ps

/-! ## Characterizing the scan: first failure and success shape -/

/-- The first failure among a sequence of walk events: the first
traversal error, or the first load failure of a toml file.  Entries that
are not toml files cannot fail. -/
def firstError : List (Except HabError DirEntry) → Option HabError
  | [] => none
  | .error e :: _ => some e
  | .ok en :: rest =>
    if tomlFileEntry en then
      match from_toml_file en.content with
      | .error e => some e
      | .ok _ => firstError rest
    else firstError rest

/-- The resolved specs an event sequence produces when nothing fails: one
patched spec per toml-file entry, in traversal order. -/
def resolvedOf (defP : Load) (events : List (Except HabError DirEntry)) :
    List Load :=
  events.filterMap fun ev =>
    match ev with
    | .error _ => none
    | .ok en =>
      if tomlFileEntry en then
        match from_toml_file en.content with
        | .ok s => some (patch s defP)
        | .error _ => none
      else none

theorem walkAll_nil (fs : Fs) : walkAll fs [] = [] := rfl

theorem walkAll_cons (fs : Fs) (p : String) (ps : List String) :
    walkAll fs (p :: ps) = walkRoot fs p ++ walkAll fs ps := by
  simp [walkAll]

theorem processEntries_eq_error (defP : Load) :
    ∀ events e, firstError events = some e →
      processEntries defP events = .error e := by
  intro events
  induction events with
  | nil => intro e h; simp [firstError] at h
  | cons ev rest ih =>
    intro e h
    cases ev with
    | error e0 =>
      simp only [firstError, Option.some.injEq] at h
      subst h
      rfl
    | ok en =>
      by_cases ht : tomlFileEntry en = true
      · cases hl : from_toml_file en.content with
        | error e1 =>
          simp only [firstError, ht, if_true, hl, Option.some.injEq] at h
          subst h
          simp [processEntries, ht, hl]
        | ok s =>
          simp only [firstError, ht, if_true, hl] at h
          simp [processEntries, ht, hl, ih e h]
      · simp only [firstError, ht, if_false] at h
        simp [processEntries, ht, ih e h]

theorem processEntries_eq_ok (defP : Load) :
    ∀ events, firstError events = none →
      processEntries defP events = .ok (resolvedOf defP events) := by
  intro events
  induction events with
  | nil => intro h; rfl
  | cons ev rest ih =>
    intro h
    cases ev with
    | error e0 => simp [firstError] at h
    | ok en =>
      by_cases ht : tomlFileEntry en = true
      · cases hl : from_toml_file en.content with
        | error e1 => simp [firstError, ht, hl] at h
        | ok s =>
          simp only [firstError, ht, if_true, hl] at h
          simp [processEntries, ht, hl, ih h, resolvedOf]
      · simp only [firstError, ht, if_false] at h
        simp [processEntries, ht, ih h, resolvedOf]

theorem firstError_append (xs ys : List (Except HabError DirEntry)) :
    firstError (xs ++ ys) =
      match firstError xs with
      | some e => some e
      | none => firstError ys := by
  induction xs with
  | nil => simp [firstError]
  | cons ev rest ih =>
    cases ev with
    | error e0 => rfl
    | ok en =>
      by_cases ht : tomlFileEntry en = true
      · cases hl : from_toml_file en.content with
        | error e1 => simp [firstError, ht, hl]
        | ok s => simp [firstError, ht, hl, ih]
      · simp [firstError, ht, ih]

theorem resolvedOf_append (defP : Load)
    (xs ys : List (Except HabError DirEntry)) :
    resolvedOf defP (xs ++ ys) = resolvedOf defP xs ++ resolvedOf defP ys := by
  simp [resolvedOf, List.filterMap_append]

theorem processPaths_eq_error (fs : Fs) (defP : Load) :
    ∀ ps e, firstError (walkAll fs ps) = some e →
      processPaths fs defP ps = .error e := by
  intro ps
  induction ps with
  | nil => intro e h; simp [walkAll, firstError] at h
  | cons p ps ih =>
    intro e h
    rw [walkAll_cons, firstError_append] at h
    cases hfe : firstError (walkRoot fs p) with
    | some e0 =>
      rw [hfe] at h
      simp only [Option.some.injEq] at h
      subst h
      simp [processPaths, processEntries_eq_error defP _ e0 hfe]
    | none =>
      rw [hfe] at h
      simp only at h
      simp [processPaths, processEntries_eq_ok defP _ hfe, ih e h]

theorem processPaths_eq_ok (fs : Fs) (defP : Load) :
    ∀ ps, firstError (walkAll fs ps) = none →
      processPaths fs defP ps = .ok (resolvedOf defP (walkAll fs ps)) := by
  intro ps
  induction ps with
  | nil => intro h; rfl
  | cons p ps ih =>
    intro h
    rw [walkAll_cons, firstError_append] at h
    cases hfe : firstError (walkRoot fs p) with
    | some e0 => rw [hfe] at h; simp at h
    | none =>
      rw [hfe] at h
      simp only at h
      rw [walkAll_cons, resolvedOf_append]
      simp [processPaths, processEntries_eq_ok defP _ hfe, ih h]

theorem firstError_none_no_error (e : HabError) :
    ∀ events, firstError events = none → .error e ∉ events := by
  intro events
  induction events with
  | nil => intro _ h; simp at h
  | cons ev rest ih =>
    intro h
    cases ev with
    | error e0 => simp [firstError] at h
    | ok en =>
      by_cases ht : tomlFileEntry en = true
      · cases hl : from_toml_file en.content with
        | error e1 => simp [firstError, ht, hl] at h
        | ok s =>
          simp only [firstError, ht, if_true, hl] at h
          simp [ih h]
      · simp only [firstError, ht, if_false] at h
        simp [ih h]

theorem svc_loads_eq_body (fs : Fs) (defFile : Option FileContent)
    (paths : List String)
    (hntol : ¬(paths = [DEFAULT_SVC_CONFIG_PATH] ∧
        (rootLookup fs DEFAULT_SVC_CONFIG_PATH).isNone = true)) :
    svc_loads_from_paths fs defFile paths = bulk_load_body fs defFile paths := by
  match paths with
  | [] => rfl
  | [p] =>
    simp only [svc_loads_from_paths]
    rw [if_neg]
    rintro ⟨h1, h2⟩
    subst h1
    exact hntol ⟨rfl, h2⟩
  | p :: q :: rest => rfl

/-! ## Sample data for witnesses -/

/-- Sample base spec: explicit channel, defaulted group and bldr_url,
topology unset. -/
def loadA : Load :=
  mkLoad fun f =>
    match f with
    | .channel => some (.explicitVal (.str "unstable"))
    | .group => some (.defaultedVal (.str "default"))
    | .bldr_url => some (.defaultedVal (.str "https://bldr.habitat.sh"))
    | _ => none

/-- Sample overlay spec: explicit channel and group, defaulted bldr_url,
topology unset. -/
def loadB : Load :=
  mkLoad fun f =>
    match f with
    | .channel => some (.explicitVal (.str "stable"))
    | .group => some (.explicitVal (.str "prod"))
    | .bldr_url => some (.defaultedVal (.str "https://example.net"))
    | _ => none

/-- Empty filesystem. -/
def fsEmpty : Fs := []

/-- Filesystem with one directory holding a malformed toml file. -/
def fsBad : Fs := [("/svc", .dir "svc" [.file "a.toml" .malformed])]

/-- Filesystem with one directory holding a well-formed toml file and a
non-toml file. -/
def fsGood : Fs :=
  [("/svc",
    .dir "svc"
      [.file "a.toml" (.table [("channel", .str "unstable")]),
       .file "README.md" (.table [])])]

/-- Filesystem with one directory holding no toml files at all. -/
def fsNoToml : Fs := [("/svc", .dir "svc" [.file "README.md" (.table [])])]

/-! ## Claim theorems -/

/-- Claim C1: for every field `f` and specs `A` (base), `B` (overlay),
`patch(A,B).f` equals `A.f` when `A.f` is explicit; equals `B.f` (tagged
explicit) when `A.f` is defaulted or unset and `B.f` is explicit; equals
`A.f` when both are defaulted; and stays unset when both are unset. -/
theorem patch_field_semantics (A B : Load) (f : FieldName) :
    (isExplicitOpt (A.get f) = true → (patch A B).get f = A.get f) ∧
    (isExplicitOpt (A.get f) = false → isExplicitOpt (B.get f) = true →
      (patch A B).get f = B.get f) ∧
    (isDefaultedOpt (A.get f) = true → isDefaultedOpt (B.get f) = true →
      (patch A B).get f = A.get f) ∧
    (A.get f = none → B.get f = none → (patch A B).get f = none) := by
  rcases hA : A.get f with _ | (v | v) <;> rcases hB : B.get f with _ | (w | w) <;>
    refine ⟨?_, ?_, ?_, ?_⟩ <;>
    simp [patch_get, hA, hB, patchField, isExplicitOpt, isDefaultedOpt]

theorem patch_field_semantics_witness :
    (patch loadA loadB).get .channel = loadA.get .channel ∧
    (patch loadA loadB).get .group = loadB.get .group ∧
    (patch loadA loadB).get .bldr_url = loadA.get .bldr_url ∧
    (patch loadA loadB).get .topology = none :=
  ⟨(patch_field_semantics loadA loadB .channel).1 (by decide),
   (patch_field_semantics loadA loadB .group).2.1 (by decide) (by decide),
   (patch_field_semantics loadA loadB .bldr_url).2.2.1 (by decide) (by decide),
   (patch_field_semantics loadA loadB .topology).2.2.2 (by decide) (by decide)⟩

/-- Claim C6: patch is idempotent, `patch(A, patch(A,B)) = patch(A,B)`. -/
theorem patch_idempotent (A B : Load) :
    patch A (patch A B) = patch A B := by
  simp only [patch, patchField_idem]

/-- Claim C2: a document holding at least one key outside the recognized
field set fails to load with an `UnknownField` error; no partial
specification is produced (the loader returns only the error). -/
theorem unknown_field_rejected (kvs : List (String × Val))
    (h : ∃ kv ∈ kvs, recognizedKey kv.1 = false) :
    ∃ k, from_toml_file (.table kvs) = .error (.unknownField k) ∧
      recognizedKey k = false := by
  have hsome : (kvs.find? (fun kv => !recognizedKey kv.1)).isSome = true := by
    rw [List.find?_isSome]
    rcases h with ⟨kv, hmem, hk⟩
    exact ⟨kv, hmem, by simp [hk]⟩
  rcases Option.isSome_iff_exists.mp hsome with ⟨kv, hfind⟩
  refine ⟨kv.1, ?_, ?_⟩
  · simp [from_toml_file, hfind]
  · have hp := List.find?_some hfind
    simpa using hp

theorem unknown_field_rejected_witness :
    ∃ k,
      from_toml_file
          (.table [("channel", .str "stable"), ("chanel", .str "typo")]) =
        .error (.unknownField k) ∧
      recognizedKey k = false :=
  unknown_field_rejected
    [("channel", .str "stable"), ("chanel", .str "typo")]
    ⟨("chanel", .str "typo"), by decide, by decide⟩

/-- Claim C3: when the input is exactly the single well-known default
path and that path does not exist, bulk resolution returns the empty
sequence without error; for any other input holding a non-existent path,
bulk resolution fails. -/
theorem default_root_tolerance :
    (∀ (fs : Fs) (defFile : Option FileContent),
        rootLookup fs DEFAULT_SVC_CONFIG_PATH = none →
        svc_loads_from_paths fs defFile [DEFAULT_SVC_CONFIG_PATH] = .ok []) ∧
    (∀ (fs : Fs) (defFile : Option FileContent) (paths : List String)
        (p : String), p ∈ paths → rootLookup fs p = none →
        paths ≠ [DEFAULT_SVC_CONFIG_PATH] →
        ∃ e, svc_loads_from_paths fs defFile paths = .error e) := by
  constructor
  · intro fs defFile h
    simp [svc_loads_from_paths, h]
  · intro fs defFile paths p hmem hlook hne
    have hntol : ¬(paths = [DEFAULT_SVC_CONFIG_PATH] ∧
        (rootLookup fs DEFAULT_SVC_CONFIG_PATH).isNone = true) := by
      rintro ⟨h1, _⟩
      exact hne h1
    rw [svc_loads_eq_body fs defFile paths hntol]
    unfold bulk_load_body
    cases hdef : from_default_config_files defFile with
    | error e => exact ⟨e, rfl⟩
    | ok defP =>
      cases hfe : firstError (walkAll fs paths) with
      | some e =>
        exact ⟨e, processPaths_eq_error fs defP paths e hfe⟩
      | none =>
        exfalso
        have hmemev :
            (Except.error (HabError.fsError p) : Except HabError DirEntry) ∈
              walkAll fs paths := by
          have hwr : walkRoot fs p = [.error (.fsError p)] := by
            simp [walkRoot, hlook]
          unfold walkAll
          rw [List.mem_flatten]
          exact ⟨walkRoot fs p, List.mem_map_of_mem _ hmem,
                 by rw [hwr]; simp⟩
        exact firstError_none_no_error _ _ hfe hmemev

theorem default_root_tolerance_witness :
    svc_loads_from_paths fsEmpty none [DEFAULT_SVC_CONFIG_PATH] = .ok [] ∧
    ∃ e, svc_loads_from_paths fsEmpty none ["/etc/svc"] = .error e :=
  ⟨default_root_tolerance.1 fsEmpty none rfl,
   default_root_tolerance.2 fsEmpty none ["/etc/svc"] "/etc/svc"
     (by simp) rfl (by decide)⟩

/-- Claim C4: outside the tolerated missing-default-root case, if any
traversal step or any config-file load fails, the whole bulk operation
returns the first such error; no partial results survive (the result is
the bare error). -/
theorem bulk_aborts_on_first_error (fs : Fs) (defFile : Option FileContent)
    (paths : List String) (defP : Load) (e : HabError)
    (hntol : ¬(paths = [DEFAULT_SVC_CONFIG_PATH] ∧
        (rootLookup fs DEFAULT_SVC_CONFIG_PATH).isNone = true))
    (hdef : from_default_config_files defFile = .ok defP)
    (hfe : firstError (walkAll fs paths) = some e) :
    svc_loads_from_paths fs defFile paths = .error e := by
  rw [svc_loads_eq_body fs defFile paths hntol]
  unfold bulk_load_body
  rw [hdef]
  exact processPaths_eq_error fs defP paths e hfe

theorem bulk_aborts_on_first_error_witness :
    svc_loads_from_paths fsBad none ["/svc"] = .error .malformedDocument :=
  bulk_aborts_on_first_error fsBad none ["/svc"] (partialFromKvs [])
    .malformedDocument (by decide) rfl (by decide)

/-- Claim C5: when every traversal step and every toml-file load
succeeds, bulk resolution returns exactly one resolved spec per regular
file with the `toml` extension, in traversal order of the input paths;
all other files are skipped. -/
theorem bulk_success_shape (fs : Fs) (defFile : Option FileContent)
    (paths : List String) (defP : Load)
    (hdef : from_default_config_files defFile = .ok defP)
    (hok : firstError (walkAll fs paths) = none) :
    svc_loads_from_paths fs defFile paths =
      .ok (resolvedOf defP (walkAll fs paths)) := by
  have hntol : ¬(paths = [DEFAULT_SVC_CONFIG_PATH] ∧
      (rootLookup fs DEFAULT_SVC_CONFIG_PATH).isNone = true) := by
    rintro ⟨h1, h2⟩
    rw [Option.isNone_iff_eq_none] at h2
    rw [h1, walkAll_cons, walkAll_nil, List.append_nil] at hok
    simp [walkRoot, h2, firstError] at hok
  rw [svc_loads_eq_body fs defFile paths hntol]
  unfold bulk_load_body
  rw [hdef]
  exact processPaths_eq_ok fs defP paths hok

theorem bulk_success_shape_witness :
    svc_loads_from_paths fsGood none ["/svc"] =
      .ok (resolvedOf (partialFromKvs []) (walkAll fsGood ["/svc"])) :=
  bulk_success_shape fsGood none ["/svc"] (partialFromKvs []) rfl (by decide)

/-- Claim C7: bulk resolution is deterministic; over the same filesystem,
the same default config file and the same input paths, two invocations
return the same sequence (the embedding is a pure function of those
inputs: the code takes no other input and uses no ambient state). -/
theorem bulk_deterministic (fs1 fs2 : Fs) (d1 d2 : Option FileContent)
    (ps1 ps2 : List String) (hfs : fs1 = fs2) (hd : d1 = d2)
    (hp : ps1 = ps2) :
    svc_loads_from_paths fs1 d1 ps1 = svc_loads_from_paths fs2 d2 ps2 := by
  subst hfs hd hp
  rfl

theorem bulk_deterministic_witness :
    svc_loads_from_paths fsGood none ["/svc"] =
      svc_loads_from_paths fsGood none ["/svc"] :=
  bulk_deterministic fsGood fsGood none none ["/svc"] ["/svc"] rfl rfl rfl

/-! ## Absent health-check interval -/

/-- Whether a key occurs in a key/value table. -/
def hasKey (kvs : List (String × Val)) (k : String) : Bool :=
  kvs.any fun kv => kv.1 == k

/-- Whether the (optional) default config file sets a key. -/
def defFileHasKey : Option FileContent → String → Bool
  | none, _ => false
  | some .malformed, _ => false
  | some (.table kvs), k => hasKey kvs k

theorem lookupKey_eq_none (kvs : List (String × Val)) (k : String)
    (h : hasKey kvs k = false) : lookupKey kvs k = none := by
  unfold hasKey at h
  rw [List.any_eq_false] at h
  unfold lookupKey
  have hf : kvs.find? (fun kv => kv.1 == k) = none := by
    rw [List.find?_eq_none]
    intro x hx
    simpa using h x hx
  rw [hf]
  rfl

/-- Claim C8: when the health-check-interval field is set neither in the
loaded config file nor in the shared default file, the resolved spec's
health-check interval is the built-in constant
`health_check_interval_default`, tagged defaulted, and that constant is
30.  (The command line does not participate in the bulk path.) -/
theorem health_check_interval_defaulted_30
    (kvs : List (String × Val)) (defFile : Option FileContent) (s d : Load)
    (hfile : from_toml_file (.table kvs) = .ok s)
    (hnk : hasKey kvs "health_check_interval" = false)
    (hdef : from_default_config_files defFile = .ok d)
    (hnd : defFileHasKey defFile "health_check_interval" = false) :
    (patch s d).get .health_check_interval =
      some (.defaultedVal (.nat health_check_interval_default)) ∧
    health_check_interval_default = 30 := by
  refine ⟨?_, rfl⟩
  have hs : s.get .health_check_interval =
      some (.defaultedVal (.nat health_check_interval_default)) := by
    simp only [from_toml_file] at hfile
    cases hf : kvs.find? (fun kv => !recognizedKey kv.1) with
    | some kv => rw [hf] at hfile; cases hfile
    | none =>
      rw [hf] at hfile
      injection hfile with h
      subst h
      unfold from_partial_table
      rw [get_mkLoad]
      rw [show fieldKey .health_check_interval =
          "health_check_interval" from rfl]
      rw [lookupKey_eq_none kvs _ hnk]
      rfl
  have hd0 : d.get .health_check_interval = none := by
    cases defFile with
    | none =>
      simp only [from_default_config_files] at hdef
      injection hdef with h
      subst h
      rfl
    | some c =>
      cases c with
      | malformed => simp [from_default_config_files] at hdef
      | table dkvs =>
        simp only [from_default_config_files] at hdef
        cases hf : dkvs.find? (fun kv => !recognizedKey kv.1) with
        | some kv => rw [hf] at hdef; cases hdef
        | none =>
          rw [hf] at hdef
          injection hdef with h
          subst h
          unfold partialFromKvs
          rw [get_mkLoad]
          rw [show fieldKey .health_check_interval =
              "health_check_interval" from rfl]
          rw [lookupKey_eq_none dkvs _
            (by simpa [defFileHasKey] using hnd)]
  rw [patch_get, hs, hd0]
  rfl

theorem health_check_interval_defaulted_30_witness :
    (patch (from_partial_table [("channel", .str "unstable")])
        (partialFromKvs [("group", .str "prod")])).get
        .health_check_interval =
      some (.defaultedVal (.nat health_check_interval_default)) ∧
    health_check_interval_default = 30 :=
  health_check_interval_defaulted_30
    [("channel", .str "unstable")]
    (some (.table [("group", .str "prod")]))
    (from_partial_table [("channel", .str "unstable")])
    (partialFromKvs [("group", .str "prod")])
    rfl (by decide) rfl (by decide)

/-- Claim C9: with an empty input path sequence, bulk resolution performs
no traversal and returns the empty result, provided the shared default
config file loads successfully. -/
theorem bulk_empty_paths (fs : Fs) (defFile : Option FileContent) (d : Load)
    (hdef : from_default_config_files defFile = .ok d) :
    svc_loads_from_paths fs defFile [] = .ok [] := by
  show bulk_load_body fs defFile [] = .ok []
  unfold bulk_load_body
  rw [hdef]
  rfl

theorem bulk_empty_paths_witness :
    svc_loads_from_paths fsEmpty none [] = .ok [] :=
  bulk_empty_paths fsEmpty none (partialFromKvs []) rfl

/-- Claim C10: outside the tolerated missing-default-root case, the
shared default spec is loaded before any traversal; if that load fails
the whole bulk operation fails with that error, even when the input
paths hold no toml files at all. -/
theorem default_load_error_aborts (fs : Fs) (defFile : Option FileContent)
    (paths : List String) (e : HabError)
    (hntol : ¬(paths = [DEFAULT_SVC_CONFIG_PATH] ∧
        (rootLookup fs DEFAULT_SVC_CONFIG_PATH).isNone = true))
    (hdef : from_default_config_files defFile = .error e) :
    svc_loads_from_paths fs defFile paths = .error e := by
  rw [svc_loads_eq_body fs defFile paths hntol]
  unfold bulk_load_body
  rw [hdef]

theorem default_load_error_aborts_witness :
    svc_loads_from_paths fsNoToml (some .malformed) ["/svc"] =
      .error .malformedDocument :=
  default_load_error_aborts fsNoToml (some .malformed) ["/svc"]
    .malformedDocument (by decide) rfl

end Habitat
